import Mathlib

/-!
Verification of the volatile register accessor of `src/pointer_access.h`.

The header defines four straight-line inline functions that cast an integer
address to a volatile pointer and dereference it:

* `_volatileRegisterReadUInt8  (uintptr_t address) -> uint8_t`
* `_volatileRegisterWriteUInt8 (uintptr_t address, uint8_t value)`
* `_volatileRegisterReadUInt16 (uintptr_t address) -> uint16_t`
* `_volatileRegisterWriteUInt16(uintptr_t address, uint16_t value)`

We embed them over an explicit byte-addressed memory (`Mem`, a total function
from addresses to byte contents) together with an instrumentation trace that
records every bus transaction the operation performs, so that claims about
access counts and access widths are statable.  A 16-bit access touches the
bytes at `address` and `address + 1` as one transaction; the way the two bytes
form the 16-bit value is the platform's native byte order, which we keep as an
explicit `Endian` parameter.  Machine integers are `Nat` with `% 2^8` /
`% 2^16` where the C types truncate.
-/

/-- Byte-addressed memory: the byte currently stored at each address.
Bytes written through the accessor are always reduced `% 256`. -/
def Mem : Type := Nat → Nat

/-- One bus transaction, as seen by an instrumented memory model:
an 8-bit or 16-bit load or store at an address. -/
inductive Access : Type
  | load8 (address : Nat)
  | store8 (address : Nat) (value : Nat)
  | load16 (address : Nat)
  | store16 (address : Nat) (value : Nat)
  deriving DecidableEq, Repr

/-- Width in bits of a bus transaction. -/
def Access.width : Access → Nat
  | .load8 _ => 8
  | .store8 _ _ => 8
  | .load16 _ => 16
  | .store16 _ _ => 16

/-- Platform byte order used by the native 16-bit load/store. -/
inductive Endian : Type
  | little
  | big
  deriving DecidableEq, Repr

/-- The 16-bit value delivered by one native 16-bit bus load whose two bytes
are `b0` (at the lower address) and `b1` (at the higher address). -/
def combine16 (e : Endian) (b0 b1 : Nat) : Nat :=
  match e with
  | .little => b0 + 256 * b1
  | .big => b1 + 256 * b0

/-- Store a single byte (truncated to 8 bits) at address `a`. -/
def Mem.setByte (m : Mem) (a b : Nat) : Mem :=
  fun x => if x = a then b % 256 else m x

/-- Outcome of a read operation: the loaded value, the memory afterwards, and
the list of bus transactions performed. -/
structure ReadResult where
  value : Nat
  mem : Mem
  trace : List Access

/-- Outcome of a write operation: the memory afterwards and the list of bus
transactions performed. -/
structure WriteResult where
  mem : Mem
  trace : List Access

/-- `static inline uint8_t _volatileRegisterReadUInt8(uintptr_t address)`:
cast `address` to `volatile uint8_t *` and load one byte through it. -/
def _volatileRegisterReadUInt8 (m : Mem) (address : Nat) : ReadResult :=
  { value := m address % 256
    mem := m
    trace := [Access.load8 address] }

/-- `static inline void _volatileRegisterWriteUInt8(uintptr_t address, uint8_t value)`:
cast `address` to `volatile uint8_t *` and store `value` through it. -/
def _volatileRegisterWriteUInt8 (m : Mem) (address value : Nat) : WriteResult :=
  { mem := Mem.setByte m address value
    trace := [Access.store8 address (value % 256)] }

/-- `static inline uint16_t _volatileRegisterReadUInt16(uintptr_t address)`:
cast `address` to `volatile uint16_t *` and load 16 bits through it, as one
native-endian 16-bit transaction over the bytes at `address` and `address + 1`. -/
def _volatileRegisterReadUInt16 (e : Endian) (m : Mem) (address : Nat) : ReadResult :=
  { value := combine16 e (m address % 256) (m (address + 1) % 256)
    mem := m
    trace := [Access.load16 address] }

/-- `static inline void _volatileRegisterWriteUInt16(uintptr_t address, uint16_t value)`:
cast `address` to `volatile uint16_t *` and store `value` through it, as one
native-endian 16-bit transaction over the bytes at `address` and `address + 1`. -/
def _volatileRegisterWriteUInt16 (e : Endian) (m : Mem) (address value : Nat) : WriteResult :=
  let lo := value % 256
  let hi := value / 256 % 256
  let b0 := match e with | .little => lo | .big => hi
  let b1 := match e with | .little => hi | .big => lo
  { mem := fun x => if x = address then b0 else if x = address + 1 then b1 else m x
    trace := [Access.store16 address (value % 65536)] }

/-- Claim C1: for every address backed by ordinary read-write memory and every
value `v ≤ 255`, writing `v` with `_volatileRegisterWriteUInt8` and then
reading the same address with `_volatileRegisterReadUInt8` returns exactly `v`. -/
theorem readUInt8_after_writeUInt8 (m : Mem) (a v : Nat) (h : v ≤ 255) :
    (_volatileRegisterReadUInt8 (_volatileRegisterWriteUInt8 m a v).mem a).value = v := by
  simp [_volatileRegisterReadUInt8, _volatileRegisterWriteUInt8, Mem.setByte]
  omega

/-- Witness for C1: on a zeroed memory, writing `0xFF` at address 4 and
reading it back yields `0xFF`. -/
theorem readUInt8_after_writeUInt8_witness :
    (_volatileRegisterReadUInt8 (_volatileRegisterWriteUInt8 (fun _ => 0) 4 255).mem 4).value
      = 255 :=
  readUInt8_after_writeUInt8 (fun _ => 0) 4 255 (by decide)

/-- Claim C2: for every byte order, every address backed by ordinary
read-write memory and every value `v ≤ 65535`, writing `v` with
`_volatileRegisterWriteUInt16` and then reading the same address with
`_volatileRegisterReadUInt16` returns exactly `v`. -/
theorem readUInt16_after_writeUInt16 (e : Endian) (m : Mem) (a v : Nat) (h : v ≤ 65535) :
    (_volatileRegisterReadUInt16 e (_volatileRegisterWriteUInt16 e m a v).mem a).value = v := by
  cases e <;>
    simp [_volatileRegisterReadUInt16, _volatileRegisterWriteUInt16, combine16,
      Nat.succ_ne_self] <;>
    omega

/-- Witness for C2: on a zeroed little-endian memory, `write16(A, 0x1234)`
followed by `read16(A)` returns `0x1234` (here `A = 4`). -/
theorem readUInt16_after_writeUInt16_witness :
    (_volatileRegisterReadUInt16 Endian.little
      (_volatileRegisterWriteUInt16 Endian.little (fun _ => 0) 4 0x1234).mem 4).value
      = 0x1234 :=
  readUInt16_after_writeUInt16 Endian.little (fun _ => 0) 4 0x1234 (by decide)

/-- Claim C3: `_volatileRegisterWriteUInt8` changes only the byte at
`address`, and `_volatileRegisterWriteUInt16` changes only the two bytes at
`address` and `address + 1`; every other memory location keeps its value. -/
theorem volatileRegisterWrite_frame (e : Endian) (m : Mem) (a v x : Nat) :
    (x ≠ a → (_volatileRegisterWriteUInt8 m a v).mem x = m x) ∧
    (x ≠ a → x ≠ a + 1 → (_volatileRegisterWriteUInt16 e m a v).mem x = m x) := by
  constructor
  · intro hx
    simp [_volatileRegisterWriteUInt8, Mem.setByte, hx]
  · intro hx hx1
    simp [_volatileRegisterWriteUInt16, hx, hx1]

/-- Witness for C3: with every byte initialized to 9, an 8-bit write at
address 4 and a 16-bit write at address 4 both leave address 7 holding 9. -/
theorem volatileRegisterWrite_frame_witness :
    (_volatileRegisterWriteUInt8 (fun _ => 9) 4 255).mem 7 = 9 ∧
    (_volatileRegisterWriteUInt16 Endian.little (fun _ => 9) 4 0x1234).mem 7 = 9 :=
  ⟨(volatileRegisterWrite_frame Endian.little (fun _ => 9) 4 255 7).1 (by decide),
   (volatileRegisterWrite_frame Endian.little (fun _ => 9) 4 0x1234 7).2
     (by decide) (by decide)⟩

/-- Claim C4: for every byte order and address, `_volatileRegisterReadUInt8`
and `_volatileRegisterReadUInt16` leave the entire memory state unchanged. -/
theorem volatileRegisterRead_preserves_mem (e : Endian) (m : Mem) (a : Nat) :
    (_volatileRegisterReadUInt8 m a).mem = m ∧
    (_volatileRegisterReadUInt16 e m a).mem = m :=
  ⟨rfl, rfl⟩

/-- Claim C5: on the instrumented memory model, each single call to any of the
four operations performs exactly one bus transaction, and a write immediately
followed by a read of the same address performs exactly two (no coalescing,
no extra accesses). -/
theorem single_access_per_operation (e : Endian) (m : Mem) (a v : Nat) :
    (_volatileRegisterReadUInt8 m a).trace.length = 1 ∧
    (_volatileRegisterWriteUInt8 m a v).trace.length = 1 ∧
    (_volatileRegisterReadUInt16 e m a).trace.length = 1 ∧
    (_volatileRegisterWriteUInt16 e m a v).trace.length = 1 ∧
    ((_volatileRegisterWriteUInt8 m a v).trace ++
        (_volatileRegisterReadUInt8 (_volatileRegisterWriteUInt8 m a v).mem a).trace).length
      = 2 :=
  ⟨rfl, rfl, rfl, rfl, rfl⟩

/-- Claim C6: every bus transaction performed by `_volatileRegisterReadUInt16`
or `_volatileRegisterWriteUInt16` is 16 bits wide; no 8-bit (sub-width) access
ever occurs during them. -/
theorem sixteenBitOps_no_subwidth_access (e : Endian) (m : Mem) (a v : Nat) :
    ((_volatileRegisterReadUInt16 e m a).trace.all fun acc => acc.width == 16) = true ∧
    ((_volatileRegisterWriteUInt16 e m a v).trace.all fun acc => acc.width == 16) = true :=
  ⟨rfl, rfl⟩

/-- Claim C7: `_volatileRegisterReadUInt16 address` returns the 16-bit value
formed from the bytes at `address` and `address + 1` according to the
platform's byte order: directly, its result is `combine16` of the two raw
bytes, and after storing bytes `b0` at `address` and `b1` at `address + 1`
through the 8-bit writer, the 16-bit read returns `combine16 e b0 b1`. -/
theorem readUInt16_combines_native_endian (e : Endian) (m : Mem) (a b0 b1 : Nat)
    (h0 : b0 ≤ 255) (h1 : b1 ≤ 255) :
    (_volatileRegisterReadUInt16 e m a).value
        = combine16 e (m a % 256) (m (a + 1) % 256) ∧
    (_volatileRegisterReadUInt16 e
        (_volatileRegisterWriteUInt8
          (_volatileRegisterWriteUInt8 m a b0).mem (a + 1) b1).mem a).value
      = combine16 e b0 b1 := by
  constructor
  · rfl
  · cases e <;>
      simp [_volatileRegisterReadUInt16, _volatileRegisterWriteUInt8, Mem.setByte,
        combine16, Nat.succ_ne_self] <;>
      omega

/-- Witness for C7: with bytes `0x34` at address 4 and `0x12` at address 5
(stored through the 8-bit writer over a zeroed memory), the little-endian
16-bit read at 4 returns `0x34 + 256 * 0x12 = 0x1234`. -/
theorem readUInt16_combines_native_endian_witness :
    (_volatileRegisterReadUInt16 Endian.little
        (_volatileRegisterWriteUInt8
          (_volatileRegisterWriteUInt8 (fun _ => 0) 4 0x34).mem (4 + 1) 0x12).mem 4).value
      = combine16 Endian.little 0x34 0x12 :=
  (readUInt16_combines_native_endian Endian.little (fun _ => 0) 4 0x34 0x12
    (by decide) (by decide)).2

/-- Claim C8: for every address and value — with no restriction whatsoever on
the address — each of the four operations unconditionally performs its single
access and returns normally through a result type with no error alternative:
the outcome never branches on any validity check of the address, so an invalid
address can only manifest as hardware-level undefined behavior, never as a
returned or raised error. -/
theorem no_address_validation_no_error (e : Endian) (m : Mem) (a v : Nat) :
    (_volatileRegisterReadUInt8 m a).trace = [Access.load8 a] ∧
    (_volatileRegisterWriteUInt8 m a v).trace = [Access.store8 a (v % 256)] ∧
    (_volatileRegisterReadUInt16 e m a).trace = [Access.load16 a] ∧
    (_volatileRegisterWriteUInt16 e m a v).trace = [Access.store16 a (v % 65536)] :=
  ⟨rfl, rfl, rfl, rfl⟩

/-- Claim C9: the component holds no persistent internal state: any two
invocations of the same operation with equal memory contents and equal
arguments produce equal results; moreover, repeating an operation exhibits no
hidden state (reading twice from the same address returns the identical
outcome, and writing the same value twice leaves the same memory as writing it
once). -/
theorem stateless_deterministic (e : Endian) (m1 m2 : Mem) (a v : Nat) (h : m1 = m2) :
    _volatileRegisterReadUInt8 m1 a = _volatileRegisterReadUInt8 m2 a ∧
    _volatileRegisterWriteUInt8 m1 a v = _volatileRegisterWriteUInt8 m2 a v ∧
    _volatileRegisterReadUInt16 e m1 a = _volatileRegisterReadUInt16 e m2 a ∧
    _volatileRegisterWriteUInt16 e m1 a v = _volatileRegisterWriteUInt16 e m2 a v ∧
    _volatileRegisterReadUInt8 (_volatileRegisterReadUInt8 m1 a).mem a
      = _volatileRegisterReadUInt8 m1 a ∧
    (_volatileRegisterWriteUInt8 (_volatileRegisterWriteUInt8 m1 a v).mem a v).mem
      = (_volatileRegisterWriteUInt8 m1 a v).mem := by
  subst h
  refine ⟨rfl, rfl, rfl, rfl, rfl, ?_⟩
  funext x
  by_cases hx : x = a <;>
    simp [_volatileRegisterWriteUInt8, Mem.setByte, hx]

/-- Witness for C9: the six statelessness equations instantiated on a zeroed
memory at address 3 with value 7, little-endian. -/
theorem stateless_deterministic_witness :
    _volatileRegisterReadUInt8 (fun _ => 0) 3 = _volatileRegisterReadUInt8 (fun _ => 0) 3 ∧
    _volatileRegisterWriteUInt8 (fun _ => 0) 3 7
      = _volatileRegisterWriteUInt8 (fun _ => 0) 3 7 ∧
    _volatileRegisterReadUInt16 Endian.little (fun _ => 0) 3
      = _volatileRegisterReadUInt16 Endian.little (fun _ => 0) 3 ∧
    _volatileRegisterWriteUInt16 Endian.little (fun _ => 0) 3 7
      = _volatileRegisterWriteUInt16 Endian.little (fun _ => 0) 3 7 ∧
    _volatileRegisterReadUInt8 (_volatileRegisterReadUInt8 (fun _ => 0) 3).mem 3
      = _volatileRegisterReadUInt8 (fun _ => 0) 3 ∧
    (_volatileRegisterWriteUInt8 (_volatileRegisterWriteUInt8 (fun _ => 0) 3 7).mem 3 7).mem
      = (_volatileRegisterWriteUInt8 (fun _ => 0) 3 7).mem :=
  stateless_deterministic Endian.little (fun _ => 0) (fun _ => 0) 3 7 rfl

/-- Claim C10: every one of the four operations terminates on every input:
each is a straight-line cast-and-dereference whose whole outcome (value,
memory, trace) is given by an explicit closed form, with no loop, recursion,
blocking, or suspension. -/
theorem operations_total_straight_line (e : Endian) (m : Mem) (a v x : Nat) :
    (_volatileRegisterReadUInt8 m a).value = m a % 256 ∧
    (_volatileRegisterReadUInt8 m a).value < 256 ∧
    (_volatileRegisterWriteUInt8 m a v).mem x = (if x = a then v % 256 else m x) ∧
    (_volatileRegisterReadUInt16 e m a).value
        = combine16 e (m a % 256) (m (a + 1) % 256) ∧
    (_volatileRegisterWriteUInt16 e m a v).mem a
        = (match e with | .little => v % 256 | .big => v / 256 % 256) ∧
    (_volatileRegisterWriteUInt16 e m a v).mem (a + 1)
        = (match e with | .little => v / 256 % 256 | .big => v % 256) := by
  refine ⟨rfl, Nat.mod_lt _ (by omega), rfl, rfl, ?_, ?_⟩ <;>
    cases e <;>
    simp [_volatileRegisterWriteUInt16, Nat.succ_ne_self]
